import Mathlib

/-!
Shallow embedding of the debank badge-claimer scripts
(`src/debank/debank.py`, `src/main.py`).

Python values decoded from JSON bodies are modelled by `Json`; Python
exceptions by `PyError`; a fallible Python computation by
`Except PyError`.  HTTP responses are records carrying the status code,
the raw text body, and the (possibly failing) result of `response.json()`.
Network traffic, time, and randomness are supplied by explicit
environment records, so every function of the source becomes a pure Lean
function of its inputs and environment.

`Json` is a mutual inductive (a JSON value, a JSON array spine, a JSON
object spine) so that the functions walking it are structurally
recursive and evaluate definitionally; `JsonList.ofList` / `toList` and
`JsonObj.ofList` / `toList` mediate with ordinary Lean lists.
-/

mutual
/-- Decoded JSON values (the result of `response.json()` in Python). -/
inductive Json where
  | null
  | bool (b : Bool)
  | num (n : Int)
  | str (s : String)
  | arr (xs : JsonList)
  | obj (fs : JsonObj)

/-- The spine of a JSON array. -/
inductive JsonList where
  | nil
  | cons (x : Json) (xs : JsonList)

/-- The spine of a JSON object: an ordered list of key/value pairs
(Python dicts preserve insertion order). -/
inductive JsonObj where
  | nil
  | cons (k : String) (v : Json) (fs : JsonObj)
end

def JsonList.ofList : List Json → JsonList
  | [] => .nil
  | x :: xs => .cons x (JsonList.ofList xs)

def JsonList.toList : JsonList → List Json
  | .nil => []
  | .cons x xs => x :: xs.toList

def JsonObj.ofList : List (String × Json) → JsonObj
  | [] => .nil
  | (k, v) :: fs => .cons k v (JsonObj.ofList fs)

def JsonObj.toList : JsonObj → List (String × Json)
  | .nil => []
  | .cons k v fs => (k, v) :: fs.toList

/-- A JSON object value built from a Lean list of fields. -/
def jObj (l : List (String × Json)) : Json := .obj (JsonObj.ofList l)

/-- A JSON array value built from a Lean list of elements. -/
def jArr (l : List Json) : Json := .arr (JsonList.ofList l)

mutual
/-- Structural equality on `Json`, modelling Python `==` on decoded
JSON values. -/
def Json.beq : Json → Json → Bool
  | .null, .null => true
  | .bool a, .bool b => a == b
  | .num a, .num b => a == b
  | .str a, .str b => a == b
  | .arr xs, .arr ys => xs.beq ys
  | .obj fs, .obj gs => fs.beq gs
  | _, _ => false

def JsonList.beq : JsonList → JsonList → Bool
  | .nil, .nil => true
  | .cons x xs, .cons y ys => x.beq y && xs.beq ys
  | _, _ => false

def JsonObj.beq : JsonObj → JsonObj → Bool
  | .nil, .nil => true
  | .cons k v fs, .cons l w gs => k == l && v.beq w && fs.beq gs
  | _, _ => false
end

mutual
def Json.eq_of_beq : ∀ {a b : Json}, Json.beq a b = true → a = b
  | .null, .null, _ => rfl
  | .bool _, .bool _, h => by
      simp only [Json.beq, beq_iff_eq] at h; exact congrArg Json.bool h
  | .num _, .num _, h => by
      simp only [Json.beq, beq_iff_eq] at h; exact congrArg Json.num h
  | .str _, .str _, h => by
      simp only [Json.beq, beq_iff_eq] at h; exact congrArg Json.str h
  | .arr xs, .arr ys, h => congrArg Json.arr (JsonList.eq_of_beq h)
  | .obj fs, .obj gs, h => congrArg Json.obj (JsonObj.eq_of_beq h)

def JsonList.eq_of_beq : ∀ {a b : JsonList}, JsonList.beq a b = true → a = b
  | .nil, .nil, _ => rfl
  | .cons x xs, .cons y ys, h => by
      simp only [JsonList.beq, Bool.and_eq_true] at h
      exact congrArg₂ JsonList.cons (Json.eq_of_beq h.1) (JsonList.eq_of_beq h.2)

def JsonObj.eq_of_beq : ∀ {a b : JsonObj}, JsonObj.beq a b = true → a = b
  | .nil, .nil, _ => rfl
  | .cons k v fs, .cons l w gs, h => by
      simp only [JsonObj.beq, Bool.and_eq_true, beq_iff_eq] at h
      rw [h.1.1, Json.eq_of_beq h.1.2, JsonObj.eq_of_beq h.2]
end

mutual
def Json.beq_refl : ∀ a : Json, Json.beq a a = true
  | .null => rfl
  | .bool b => by simp [Json.beq]
  | .num n => by simp [Json.beq]
  | .str s => by simp [Json.beq]
  | .arr xs => JsonList.beq_refl xs
  | .obj fs => JsonObj.beq_refl fs

def JsonList.beq_refl : ∀ a : JsonList, JsonList.beq a a = true
  | .nil => rfl
  | .cons x xs => by
      simp only [JsonList.beq, Bool.and_eq_true]
      exact ⟨Json.beq_refl x, JsonList.beq_refl xs⟩

def JsonObj.beq_refl : ∀ a : JsonObj, JsonObj.beq a a = true
  | .nil => rfl
  | .cons k v fs => by
      simp only [JsonObj.beq, Bool.and_eq_true, beq_iff_eq]
      exact ⟨⟨trivial, Json.beq_refl v⟩, JsonObj.beq_refl fs⟩
end

instance : DecidableEq Json := fun a b =>
  if h : Json.beq a b = true then .isTrue (Json.eq_of_beq h)
  else .isFalse fun he => h (he ▸ Json.beq_refl a)

/-- The Python exceptions this program can raise or observe.
`debank` is the repository's `DebankError`; the others model standard
exceptions (`json` decode failure, `KeyError`, `TypeError`,
`ValueError`). -/
inductive PyError where
  | debank (msg : String)
  | jsonDecode
  | keyError (k : String)
  | typeError
  | valueError (msg : String)
deriving DecidableEq

instance {ε α : Type} [DecidableEq ε] [DecidableEq α] :
    DecidableEq (Except ε α) := fun a b =>
  match a, b with
  | .error u, .error v =>
      if h : u = v then .isTrue (congrArg _ h) else .isFalse (by simp [h])
  | .ok x, .ok y =>
      if h : x = y then .isTrue (congrArg _ h) else .isFalse (by simp [h])
  | .error _, .ok _ => .isFalse (by simp)
  | .ok _, .error _ => .isFalse (by simp)

/-- An HTTP response as the program observes it: the status code, the raw
text of the body, and the result of decoding the body as JSON
(`response.json()` raises a decode error on invalid bodies). -/
structure Response where
  status_code : Nat
  text : String
  body : Except Unit Json
deriving DecidableEq

/-- `response.json()`: returns the decoded body or raises a decode error. -/
def Response.jsonOf (r : Response) : Except PyError Json :=
  match r.body with
  | .error _ => .error .jsonDecode
  | .ok j => .ok j

mutual
/-- Python `str(value)` on a decoded JSON value, as used inside f-strings
(model: strings render verbatim, `True`/`False`/`None` as in Python;
composite values get a simple structural rendering). -/
def Json.pyStr : Json → String
  | .null => "None"
  | .bool b => if b then "True" else "False"
  | .num n => toString n
  | .str s => s
  | .arr xs => "[" ++ xs.pyStrItems ++ "]"
  | .obj fs => "\x7b" ++ fs.pyStrItems ++ "\x7d"

def JsonList.pyStrItems : JsonList → String
  | .nil => ""
  | .cons x .nil => x.pyStr
  | .cons x (.cons y xs) => x.pyStr ++ ", " ++ (JsonList.cons y xs).pyStrItems

def JsonObj.pyStrItems : JsonObj → String
  | .nil => ""
  | .cons k v .nil => k ++ ": " ++ v.pyStr
  | .cons k v (.cons l w fs) =>
      k ++ ": " ++ v.pyStr ++ ", " ++ (JsonObj.cons l w fs).pyStrItems
end

/-- Key membership in a JSON object spine. -/
def JsonObj.hasKey : JsonObj → String → Bool
  | .nil, _ => false
  | .cons k _ fs, s => k == s || fs.hasKey s

/-- Python `key in value` for a decoded JSON value: key membership for
dicts, element membership for lists, substring test for strings, and a
`TypeError` for the remaining (non-container) values. -/
def Json.contains (j : Json) (s : String) : Except PyError Bool :=
  match j with
  | .obj fs => .ok (fs.hasKey s)
  | .arr xs => .ok (xs.toList.any fun x => Json.beq x (Json.str s))
  | .str t => .ok (decide (List.IsInfix s.toList t.toList))
  | _ => .error .typeError

/-- Python `value[key]` on a decoded JSON dict: the value at the first
matching key, or a `KeyError`; a `TypeError` on non-dict values. -/
def Json.get (j : Json) (k : String) : Except PyError Json :=
  match j with
  | .obj fs =>
      match fs.toList.find? (fun f => f.1 == k) with
      | some f => .ok f.2
      | none => .error (.keyError k)
  | _ => .error .typeError

/-- `Debank.validate_response` (debank.py lines 45-52): raise
`DebankError` with the raw text on a non-200 status; otherwise decode the
body and raise `DebankError` with the `error_msg` value if that key is
present; otherwise return the response itself unchanged. -/
def validate_response (r : Response) : Except PyError Response :=
  if r.status_code ≠ 200 then
    .error (.debank ("Debank return " ++ r.text))
  else
    match r.jsonOf with
    | .error e => .error e
    | .ok err_json =>
      match err_json.contains "error_msg" with
      | .error e => .error e
      | .ok true =>
          match err_json.get "error_msg" with
          | .error e => .error e
          | .ok v => .error (.debank ("Debank return " ++ v.pyStr))
      | .ok false => .ok r


/-- Modelled from the spec: `HEADERS` (imported from `debank.const`, a
module whose file is not among the sources) is the client's "fixed header
set"; its exact entries are unspecified, so it is one fixed list of
header pairs. -/
def HEADERS : List (String × String) := [("user-agent", "fixed-headers")]

namespace DebankApiUrl

def REFCODE_TRACK : String := "https://api.debank.com/user/ref_code/track"

def BADGE_USER_CAN_MINT : String := "https://api.debank.com/badge/user_can_mint"

def BADGE_MINT : String := "https://api.debank.com/badge/mint"

def SIGN_V2 : String := "https://api.debank.com/user/sign_v2"

def LOGIN_V2 : String := "https://api.debank.com/user/login_v2"

def BADGE_LIST : String := "https://api.debank.com/badge/list"

end DebankApiUrl

/-- One outbound HTTP request as the transport sees it: method, URL, the
client's current headers, query parameters, and the optional JSON body. -/
structure Request where
  method : String
  url : String
  headers : List (String × String)
  params : List (String × Json)
  jsonBody : Option Json
deriving DecidableEq

/-- The remote service and transport, as a pure oracle: the response each
request would receive. -/
def Net : Type := Request → Response

/-- The state of a `Debank` instance: the persistent headers of its
`AsyncClient` and the proxy route it was constructed with
(`proxies={"all://": proxy} if proxy else None`: a `None` or empty —
falsy — proxy string yields no proxy). -/
structure Debank where
  headers : List (String × String)
  proxies : Option String
deriving DecidableEq

/-- `Debank.__init__` (debank.py lines 28-33). -/
def Debank.init (proxy : Option String) : Debank :=
  { headers := HEADERS
    proxies := match proxy with
      | none => none
      | some p => if p = "" then none else some p }

/-- The request issued by `Debank.refcode_track` (line 56). -/
def Debank.refcode_track_req (d : Debank) : Request :=
  ⟨"POST", DebankApiUrl.REFCODE_TRACK, d.headers, [], none⟩

/-- The request issued by `Debank.badge_user_can_mint` (line 61). -/
def Debank.badge_user_can_mint_req (d : Debank) (id : Json) : Request :=
  ⟨"GET", DebankApiUrl.BADGE_USER_CAN_MINT, d.headers, [("id", id)], none⟩

/-- The request issued by `Debank.badge_mint` (line 66). -/
def Debank.badge_mint_req (d : Debank) (id : Json) : Request :=
  ⟨"GET", DebankApiUrl.BADGE_MINT, d.headers, [], some (jObj [("id", id)])⟩

/-- The request issued by `Debank.sign_v2` (line 71). -/
def Debank.sign_v2_req (d : Debank) (address : String) : Request :=
  ⟨"POST", DebankApiUrl.SIGN_V2, d.headers, [], some (jObj [("id", Json.str address)])⟩

/-- The request issued by `Debank.login_v2` (line 76). -/
def Debank.login_v2_req (d : Debank) (address signature : String) : Request :=
  ⟨"POST", DebankApiUrl.LOGIN_V2, d.headers, [],
    some (jObj [("id", Json.str address), ("signature", Json.str signature)])⟩

/-- `Debank.refcode_track` (lines 54-57): issue the request, validate the
response. -/
def Debank.refcode_track (d : Debank) (net : Net) : Except PyError Response :=
  validate_response (net d.refcode_track_req)

/-- `Debank.badge_user_can_mint` (lines 59-62). -/
def Debank.badge_user_can_mint (d : Debank) (net : Net) (id : Json) :
    Except PyError Response :=
  validate_response (net (d.badge_user_can_mint_req id))

/-- `Debank.badge_mint` (lines 64-67). -/
def Debank.badge_mint (d : Debank) (net : Net) (id : Json) :
    Except PyError Response :=
  validate_response (net (d.badge_mint_req id))

/-- `Debank.sign_v2` (lines 69-72). -/
def Debank.sign_v2 (d : Debank) (net : Net) (address : String) :
    Except PyError Response :=
  validate_response (net (d.sign_v2_req address))

/-- `Debank.login_v2` (lines 74-77). -/
def Debank.login_v2 (d : Debank) (net : Net) (address signature : String) :
    Except PyError Response :=
  validate_response (net (d.login_v2_req address signature))

/-- Python `str.lower()` (model: lowering each character). -/
def pyLower (s : String) : String := String.mk (s.data.map Char.toLower)

/-- An `eth_account.Account` object: its checksum address and its signing
capability (`sign_message(encode_defunct(text=...)).signature.hex()`), a
black box from the message text to the hex signature. -/
structure EthAccount where
  address : String
  signHex : String → String

/-- Python `value` must be a `str` (as required of the challenge text fed
to `encode_defunct(text=...)`). -/
def Json.asStr : Json → Except PyError String
  | .str s => .ok s
  | _ => .error .typeError

mutual
/-- `json.dumps` on a decoded JSON value (model: standard JSON rendering,
string contents unescaped). -/
def Json.dumps : Json → String
  | .null => "null"
  | .bool b => if b then "true" else "false"
  | .num n => toString n
  | .str s => "\"" ++ s ++ "\""
  | .arr xs => "[" ++ xs.dumpsItems ++ "]"
  | .obj fs => "\x7b" ++ fs.dumpsItems ++ "\x7d"

def JsonList.dumpsItems : JsonList → String
  | .nil => ""
  | .cons x .nil => x.dumps
  | .cons x (.cons y xs) => x.dumps ++ ", " ++ (JsonList.cons y xs).dumpsItems

def JsonObj.dumpsItems : JsonObj → String
  | .nil => ""
  | .cons k v .nil => "\"" ++ k ++ "\": " ++ v.dumps
  | .cons k v (.cons l w fs) =>
      "\"" ++ k ++ "\": " ++ v.dumps ++ ", " ++ (JsonObj.cons l w fs).dumpsItems
end

/-- `headers[key] = value` on httpx headers: overwrite the value at an
existing key in place, else append the new pair. -/
def headerSet (hs : List (String × String)) (k v : String) :
    List (String × String) :=
  match hs with
  | [] => [(k, v)]
  | (k', v') :: rest =>
      if k' == k then (k', v) :: rest else (k', v') :: headerSet rest k v

/-- Reading a header value by key. -/
def headerLookup : List (String × String) → String → Option String
  | [], _ => none
  | (k', v') :: rest, k => if k' == k then some v' else headerLookup rest k

/-- `DebankWorker.login` (debank.py lines 84-103): request the sign
challenge for the lowercased address, extract `data.text`, sign it,
submit address + signature to the login endpoint, extract
`data.session_id`, and attach the `account` session header (current unix
time, fresh uuid4 hex, session id, lowercased address, `"metamask"`,
`is_verified: true`) to the client's persistent headers.  `now` models
`int(time.time())` and `uuidHex` models `uuid.uuid4().hex`. -/
def DebankWorker.login (d : Debank) (net : Net) (now : Int) (uuidHex : String)
    (account : EthAccount) : Except PyError Debank :=
  match Debank.sign_v2 d net (pyLower account.address) with
  | .error e => .error e
  | .ok sign_v2_response =>
    match sign_v2_response.jsonOf with
    | .error e => .error e
    | .ok j1 =>
      match j1.get "data" with
      | .error e => .error e
      | .ok data1 =>
        match data1.get "text" with
        | .error e => .error e
        | .ok textVal =>
          match textVal.asStr with
          | .error e => .error e
          | .ok sign_v2_text =>
            match Debank.login_v2 d net (pyLower account.address)
                (account.signHex sign_v2_text) with
            | .error e => .error e
            | .ok login_v2_response =>
              match login_v2_response.jsonOf with
              | .error e => .error e
              | .ok j2 =>
                match j2.get "data" with
                | .error e => .error e
                | .ok data2 =>
                  match data2.get "session_id" with
                  | .error e => .error e
                  | .ok session_id =>
                    let account_header := jObj
                        [("random_at", Json.num now),
                         ("random_id", Json.str uuidHex),
                         ("session_id", session_id),
                         ("user_addr", Json.str (pyLower account.address)),
                         ("wallet_type", Json.str "metamask"),
                         ("is_verified", Json.bool true)]
                    .ok { d with
                          headers := headerSet d.headers "account"
                            (Json.dumps account_header) }

/-- Python truthiness of a decoded JSON value (`if is_can_mint:`). -/
def Json.truthy : Json → Bool
  | .null => false
  | .bool b => b
  | .num n => decide (n ≠ 0)
  | .str s => decide (s ≠ "")
  | .arr xs => match xs with | .nil => false | .cons _ _ => true
  | .obj fs => match fs with | .nil => false | .cons _ _ _ => true

/-- `DebankWorker.is_can_mint_bage` (lines 105-106): the value of
`data.can_mint` in the validated can-mint response (type-hinted `bool` in
the source; the raw decoded value at runtime). -/
def DebankWorker.is_can_mint_bage (d : Debank) (net : Net) (id : Json) :
    Except PyError Json :=
  match Debank.badge_user_can_mint d net id with
  | .error e => .error e
  | .ok r =>
    match r.jsonOf with
    | .error e => .error e
    | .ok j =>
      match j.get "data" with
      | .error e => .error e
      | .ok data => data.get "can_mint"

/-- Python iteration (`for badge in badges`) over a decoded JSON value:
lists yield their elements, dicts their keys, strings their characters;
the remaining values are not iterable (`TypeError`). -/
def pyIter : Json → Except PyError (List Json)
  | .arr xs => .ok xs.toList
  | .obj fs => .ok (fs.toList.map fun f => Json.str f.1)
  | .str s => .ok (s.toList.map fun c => Json.str (String.mk [c]))
  | _ => .error .typeError

/-- One insertion into a Python dict (by `==`-equality of keys): an
existing key keeps its position and gets the new value; a new key is
appended at the end. -/
def dictInsert (d : List (Json × Json)) (k v : Json) : List (Json × Json) :=
  match d with
  | [] => [(k, v)]
  | (k', v') :: rest =>
      if k' = k then (k', v) :: rest else (k', v') :: dictInsert rest k v

/-- The Python dict comprehension `{p[0]: p[1] for p in pairs}`: insert
the pairs left to right into an initially empty dict. -/
def dictComp (pairs : List (Json × Json)) : List (Json × Json) :=
  pairs.foldl (fun acc p => dictInsert acc p.1 p.2) []

/-- Reading `d[k]` from a modelled Python dict: the value at the first
`==`-equal key, if any. -/
def dictLookup (d : List (Json × Json)) (k : Json) : Option Json :=
  match d with
  | [] => none
  | (k', v') :: rest => if k' = k then some v' else dictLookup rest k

/-- The extraction half of `badge_list` (debank.py lines 109-117): decode
the badge-list response body, read `data.badge_list`, iterate it, and read
each badge's `id` and `name`.  The `name` of every badge is read first,
by the comprehension inside `", ".join([badge["name"] for badge in
badges])` in the `logger.info` call on line 116, so a badge with a
missing `name` raises before the dict is built; the join itself then
requires every name to be a `str` and raises `TypeError` on any
non-string name, still before the dict is built. -/
def badgePairs (raw : Response) : Except PyError (List (Json × Json)) :=
  match raw.jsonOf with
  | .error e => .error e
  | .ok j =>
    match j.get "data" with
    | .error e => .error e
    | .ok data =>
      match data.get "badge_list" with
      | .error e => .error e
      | .ok bl =>
        match pyIter bl with
        | .error e => .error e
        | .ok badges =>
          match badges.mapM (fun b => b.get "name") with
          | .error e => .error e
          | .ok names =>
            match names.mapM Json.asStr with
            | .error e => .error e
            | .ok _joined =>
              badges.mapM (fun b =>
                match b.get "id" with
                | .error e => .error e
                | .ok i =>
                  match b.get "name" with
                  | .error e => .error e
                  | .ok n => .ok (i, n))

/-- `badge_list` (debank.py lines 109-119): fetch the badge list with a
fresh anonymous client — the response is used directly, it is NOT passed
through `validate_response` — and build `{badge["id"]: badge["name"] for
badge in badges}`. -/
def badge_list (raw : Response) : Except PyError (List (Json × Json)) :=
  match badgePairs raw with
  | .error e => .error e
  | .ok pairs => .ok (dictComp pairs)

/-- The observable actions of a worker loop, in order: the two eligibility
/ mint calls, the three log lines of the loop body, and the fixed pause. -/
inductive Event where
  | canMintCall (id : Json)
  | mintCall (id : Json)
  | logSuccess (msg : String)
  | logError (msg : String)
  | sleep (seconds : Nat)
deriving DecidableEq

/-- Python `str(e)` of a raised exception, for the worker's log lines. -/
def PyError.pyStr : PyError → String
  | .debank m => m
  | .jsonDecode => "Expecting value"
  | .keyError k => "'" ++ k ++ "'"
  | .typeError => "unsupported operand type"
  | .valueError m => m

/-- The log message of the worker's two `except` clauses (debank.py lines
143-146): `DebankError` is caught first, every other exception by the
generic clause. -/
def errLogMsg : PyError → String
  | .debank m => "Debank Error: " ++ m
  | e => "Error: " ++ e.pyStr

/-- The badge loop of `worker` (debank.py lines 133-142): for each
`(id, name)` of the catalog in mapping order, query eligibility; if the
flag is truthy, mint and log success, else log failure; then sleep 2
seconds; an exception escapes with the events already produced. -/
def badgeLoop (net : Net) (d : Debank) (addr : String) :
    List (Json × Json) → List Event × Option PyError
  | [] => ([], none)
  | (id, name) :: rest =>
    match DebankWorker.is_can_mint_bage d net id with
    | .error e => ([.canMintCall id], some e)
    | .ok is_can_mint =>
      if is_can_mint.truthy then
        match Debank.badge_mint d net id with
        | .error e => ([.canMintCall id, .mintCall id], some e)
        | .ok _ =>
          let r := badgeLoop net d addr rest
          (.canMintCall id :: .mintCall id ::
            .logSuccess ("[" ++ addr ++ "] Badge " ++ name.pyStr ++ " minted") ::
            .sleep 2 :: r.1, r.2)
      else
        let r := badgeLoop net d addr rest
        (.canMintCall id ::
          .logError ("[" ++ addr ++ "] Badge " ++ name.pyStr ++ " can't minted") ::
          .sleep 2 :: r.1, r.2)

/-- The `try` block of `worker` (debank.py lines 130-142): log in, then
run the badge loop; the events produced so far and the exception that
escaped, if any. -/
def workerTryBody (net : Net) (now : Int) (uuidHex : String) (d : Debank)
    (account : EthAccount) (BADGE_IDS : List (Json × Json)) :
    List Event × Option PyError :=
  match DebankWorker.login d net now uuidHex account with
  | .error e => ([], some e)
  | .ok loggedIn => badgeLoop net loggedIn account.address BADGE_IDS

/-- `try`/`except` around the account body (debank.py lines 130-146):
every exception of the body is caught and logged, none escapes. -/
def tryExceptLog (p : List Event × Option PyError) : List Event :=
  p.1 ++ (match p.2 with
    | none => []
    | some e => [.logError (errLogMsg e)])

/-- The ambient behavior of everything outside the program: the network,
`Account.from_key` (which raises on a malformed secret), the
`AsyncClient` constructor (which may reject a malformed proxy), the
clock, and the uuid generator (indexed by how many accounts were
processed before). -/
structure RunEnv where
  net : Net
  from_key : String → Except PyError EthAccount
  mk_client : Option String → Except PyError Unit
  now : Nat → Int
  uuidHex : Nat → String

/-- Processing of one dequeued `(secret, proxy)` pair by `worker`
(debank.py lines 124-146): `Account.from_key` and the `DebankWorker`
construction run OUTSIDE the `try`, so their exceptions escape the worker
loop; everything from `login` on is caught and logged. -/
def processQItem (env : RunEnv) (idx : Nat) (item : String × Option String)
    (BADGE_IDS : List (Json × Json)) : Except PyError (List Event) :=
  match env.from_key item.1 with
  | .error e => .error e
  | .ok account =>
    match env.mk_client item.2 with
    | .error e => .error e
    | .ok _ =>
      .ok (tryExceptLog
        (workerTryBody env.net (env.now idx) (env.uuidHex idx)
          (Debank.init item.2) account BADGE_IDS))

/-- The events of one queue item when its credential and client
construction succeed (the total part of `processQItem`). -/
def accountEvents (env : RunEnv) (BADGE_IDS : List (Json × Json))
    (idx : Nat) (item : String × Option String) : List Event :=
  match env.from_key item.1 with
  | .error _ => []
  | .ok account =>
      tryExceptLog
        (workerTryBody env.net (env.now idx) (env.uuidHex idx)
          (Debank.init item.2) account BADGE_IDS)

/-- The worker loop `while not q.empty(): ...` (debank.py lines 122-146)
draining the queue sequentially from position `idx`: each item is
processed in order; an exception escaping `processQItem` aborts the
loop (and, through `asyncio.gather`, the whole run). -/
def workerSeqFrom (env : RunEnv) (BADGE_IDS : List (Json × Json)) :
    Nat → List (String × Option String) → Except PyError (List Event)
  | _, [] => .ok []
  | idx, item :: rest =>
    match processQItem env idx item BADGE_IDS with
    | .error e => .error e
    | .ok evs =>
      match workerSeqFrom env BADGE_IDS (idx + 1) rest with
      | .error e => .error e
      | .ok restEvs => .ok (evs ++ restEvs)

/-- The whole drain of the queue. -/
def workerSeq (env : RunEnv) (BADGE_IDS : List (Json × Json))
    (queue : List (String × Option String)) : Except PyError (List Event) :=
  workerSeqFrom env BADGE_IDS 0 queue

/-- `account.split(":", maxsplit=1)` on the characters of a line: the text
before the first colon, and the remainder after it (as a whole, colons
included) when a colon exists. -/
def splitOnceColon : List Char → List Char × Option (List Char)
  | [] => ([], none)
  | c :: cs =>
    if c = ':' then ([], some cs)
    else
      let r := splitOnceColon cs
      (c :: r.1, r.2)

/-- Line parsing in `main` (main.py lines 15-19): a line containing a
colon is split at the first colon into `[secret, proxy]`; a line without
one becomes `[line, None]`. -/
def parseLine (line : String) : String × Option String :=
  if ':' ∈ line.toList then
    let r := splitOnceColon line.toList
    (String.mk r.1, r.2.map String.mk)
  else (line, none)

/-- The input file and the badge-list response, on top of `RunEnv`. -/
structure MainEnv where
  fileLines : List String
  badgeRaw : Response
  run : RunEnv

/-- `main` (main.py lines 8-26): parse the lines into the queue, fetch
the badge catalog (a failure here aborts the run before any worker
starts), then drain the queue.  The five concurrent worker loops are
modelled by the sequential drain: the pool machine below (`poolRun`)
shows that any interleaving partitions the queue identically, and an
exception escaping any worker aborts the `asyncio.gather` in both. -/
def mainRun (env : MainEnv) : Except PyError (List Event) :=
  match badge_list env.badgeRaw with
  | .error e => .error e
  | .ok BADGE_IDS => workerSeq env.run BADGE_IDS (env.fileLines.map parseLine)

/-- One logical worker loop of the pool: the items it has dequeued so
far (in order), and whether it has exited its `while` loop. -/
structure WorkerSt (α : Type) where
  procd : List α
  done : Bool
deriving DecidableEq

/-- The shared state of the dispatcher: the remaining queue and the `N`
worker loops spawned by `asyncio.gather` (main.py line 26). -/
structure PoolSt (α : Type) where
  queue : List α
  workers : List (WorkerSt α)
deriving DecidableEq

/-- The state after `main` fills the queue and spawns `N` workers. -/
def poolInit {α : Type} (items : List α) (N : Nat) : PoolSt α :=
  ⟨items, List.replicate N ⟨[], false⟩⟩

/-- One atomic queue action of worker `i` (debank.py lines 123-124):
`while not q.empty(): ... await q.get()`.  Under cooperative asyncio
scheduling the `q.empty()` check and the `q.get()` on a non-empty queue
run with no suspension point between them, so together they are one
atomic step: a running worker either pops the head of a non-empty queue
or observes the empty queue and exits its loop.  All the awaits of the
account processing are the points where control can move to another
worker, which the schedule (the list of worker indices) models. -/
def poolStep {α : Type} (s : PoolSt α) (i : Nat) : PoolSt α :=
  match s.workers[i]? with
  | none => s
  | some w =>
    if w.done then s
    else
      match s.queue with
      | [] => ⟨[], s.workers.set i ⟨w.procd, true⟩⟩
      | x :: rest => ⟨rest, s.workers.set i ⟨w.procd ++ [x], false⟩⟩

/-- Run the pool under a schedule: the list of which worker acts at each
queue-interaction point. -/
def poolRun {α : Type} (s : PoolSt α) : List Nat → PoolSt α
  | [] => s
  | i :: sched => poolRun (poolStep s i) sched

/-- Every worker loop has observed the empty queue and exited: the whole
`asyncio.gather` has completed. -/
def PoolSt.allDone {α : Type} (s : PoolSt α) : Prop :=
  ∀ w ∈ s.workers, w.done = true

/-- The number of copies of `x` in the system: still queued, or dequeued
by some worker. -/
def countTotal {α : Type} [DecidableEq α] (s : PoolSt α) (x : α) : Nat :=
  s.queue.count x + (s.workers.map fun w => w.procd.count x).sum

/-- The environment of C6's failing run: the service is up (the badge
catalog fetch succeeds), every client constructs, but the secret
`"badkey"` is malformed, so `Account.from_key` raises `ValueError`. -/
def c6Run : RunEnv :=
  { net := fun _ => ⟨200, "", .ok (jObj [("data", jObj [])])⟩
    from_key := fun s =>
      if s = "badkey" then .error (.valueError "bad key")
      else .ok ⟨"0xA", fun t => t⟩
    mk_client := fun _ => .ok ()
    now := fun _ => 0
    uuidHex := fun _ => "u" }

/-- The input of C6's failing run: a good line then a malformed one; the
badge catalog fetch succeeds (empty catalog). -/
def c6Main : MainEnv :=
  { fileLines := ["goodkey", "badkey"]
    badgeRaw := ⟨200, "", .ok (jObj [("data", jObj [("badge_list", jArr [])])])⟩
    run := c6Run }

instance {α : Type} (s : PoolSt α) : Decidable s.allDone :=
  decidable_of_iff (∀ w ∈ s.workers, w.done = true) Iff.rfl

theorem sum_map_set {β : Type} (f : β → Nat) :
    ∀ (l : List β) (i : Nat) (w w' : β), l[i]? = some w →
      ((l.set i w').map f).sum + f w = (l.map f).sum + f w'
  | [], i, w, w', h => by simp at h
  | b :: l, 0, w, w', h => by
      simp only [List.getElem?_cons_zero, Option.some_inj] at h
      subst h; simp [List.set]; omega
  | b :: l, i + 1, w, w', h => by
      simp only [List.getElem?_cons_succ] at h
      have := sum_map_set f l i w w' h
      simp at this ⊢
      omega

theorem countTotal_poolStep {α : Type} [DecidableEq α]
    (s : PoolSt α) (i : Nat) (x : α) :
    countTotal (poolStep s i) x = countTotal s x := by
  unfold poolStep
  cases hw : s.workers[i]? with
  | none => rfl
  | some w =>
    by_cases hd : w.done = true
    · simp [hd]
    · simp only [Bool.not_eq_true] at hd
      cases hq : s.queue with
      | nil =>
        have h := sum_map_set (fun w => w.procd.count x) s.workers i w
          ⟨w.procd, true⟩ hw
        simp only [hd, Bool.false_eq_true, if_false, countTotal, hq]
        simp only [List.count_nil] at h ⊢
        omega
      | cons y rest =>
        have h := sum_map_set (fun w => w.procd.count x) s.workers i w
          ⟨w.procd ++ [y], false⟩ hw
        simp only [hd, Bool.false_eq_true, if_false, countTotal, hq]
        simp only [List.count_append, List.count_cons] at h ⊢
        by_cases hy : y = x <;> simp [hy] at h ⊢ <;> omega

theorem countTotal_poolRun {α : Type} [DecidableEq α] :
    ∀ (sched : List Nat) (s : PoolSt α) (x : α),
      countTotal (poolRun s sched) x = countTotal s x
  | [], _, _ => rfl
  | i :: sched, s, x => by
      rw [poolRun, countTotal_poolRun sched, countTotal_poolStep]

theorem mem_of_getElem?_eq_some {β : Type} {l : List β} {i : Nat} {a : β}
    (h : l[i]? = some a) : a ∈ l := by
  obtain ⟨hl, he⟩ := List.getElem?_eq_some.mp h
  exact he ▸ List.getElem_mem hl

theorem poolStep_doneEmpty {α : Type} (s : PoolSt α) (i : Nat)
    (h : s.allDone → s.queue = []) :
    (poolStep s i).allDone → (poolStep s i).queue = [] := by
  unfold poolStep
  split
  · exact h
  · rename_i w hw
    split
    · exact h
    · split
      · intro _; rfl
      · rename_i y rest hq
        intro hall
        exfalso
        have hlen : i < s.workers.length := (List.getElem?_eq_some.mp hw).1
        have hmem : (⟨w.procd ++ [y], false⟩ : WorkerSt α) ∈
            s.workers.set i ⟨w.procd ++ [y], false⟩ := by
          have hget : (s.workers.set i ⟨w.procd ++ [y], false⟩)[i]? =
              some ⟨w.procd ++ [y], false⟩ := by
            simp [List.getElem?_set, hlen]
          exact mem_of_getElem?_eq_some hget
        have hdone := hall _ hmem
        simp at hdone

theorem poolRun_doneEmpty {α : Type} :
    ∀ (sched : List Nat) (s : PoolSt α), (s.allDone → s.queue = []) →
      (poolRun s sched).allDone → (poolRun s sched).queue = []
  | [], _, h => h
  | i :: sched, s, h =>
      poolRun_doneEmpty sched (poolStep s i) (poolStep_doneEmpty s i h)

theorem poolRun_append {α : Type} :
    ∀ (a b : List Nat) (s : PoolSt α),
      poolRun s (a ++ b) = poolRun (poolRun s a) b
  | [], _, _ => rfl
  | _ :: a, b, s => poolRun_append a b _

theorem set_getElem?_id {β : Type} :
    ∀ (l : List β) (i : Nat) (a : β), l[i]? = some a → l.set i a = l
  | [], _, _, h => by simp at h
  | b :: l, 0, a, h => by
      simp only [List.getElem?_cons_zero, Option.some_inj] at h
      simp [h]
  | b :: l, i + 1, a, h => by
      simp only [List.getElem?_cons_succ] at h
      simp [set_getElem?_id l i a h]

theorem poolDrain {α : Type} :
    ∀ (items : List α) (ws : List (WorkerSt α)) (p : List α),
      ws[0]? = some ⟨p, false⟩ →
      poolRun ⟨items, ws⟩ (List.replicate items.length 0) =
        ⟨[], ws.set 0 ⟨p ++ items, false⟩⟩
  | [], ws, p, h => by
      simp only [List.length_nil, List.replicate_zero, poolRun,
        List.append_nil]
      rw [set_getElem?_id ws 0 ⟨p, false⟩ h]
  | x :: rest, ws, p, h => by
      have hstep : poolStep ⟨x :: rest, ws⟩ 0 =
          ⟨rest, ws.set 0 ⟨p ++ [x], false⟩⟩ := by
        unfold poolStep
        simp [h]
      have hget : (ws.set 0 ⟨p ++ [x], false⟩)[0]? = some ⟨p ++ [x], false⟩ := by
        have hlen : 0 < ws.length := (List.getElem?_eq_some.mp h).1
        simp [List.getElem?_set, hlen]
      calc poolRun ⟨x :: rest, ws⟩ (List.replicate (x :: rest).length 0)
      _ = poolRun ⟨rest, ws.set 0 ⟨p ++ [x], false⟩⟩
            (List.replicate rest.length 0) := by
              rw [List.length_cons, List.replicate_succ, poolRun, hstep]
      _ = ⟨[], (ws.set 0 ⟨p ++ [x], false⟩).set 0 ⟨(p ++ [x]) ++ rest, false⟩⟩ :=
              poolDrain rest _ (p ++ [x]) hget
      _ = ⟨[], ws.set 0 ⟨p ++ x :: rest, false⟩⟩ := by
              rw [List.set_set]
              simp

theorem poolStep_succ {α : Type} (q : List α) (w : WorkerSt α)
    (ws : List (WorkerSt α)) (i : Nat) :
    poolStep ⟨q, w :: ws⟩ (i + 1) =
      ⟨(poolStep ⟨q, ws⟩ i).queue, w :: (poolStep ⟨q, ws⟩ i).workers⟩ := by
  unfold poolStep
  simp only [List.getElem?_cons_succ]
  cases ws[i]? with
  | none => rfl
  | some w' =>
    cases hd : w'.done with
    | true => simp [hd]
    | false =>
      cases q with
      | nil => simp [hd, List.set]
      | cons y rest => simp [hd, List.set]

theorem poolRun_succ_map {α : Type} :
    ∀ (sched : List Nat) (q : List α) (w : WorkerSt α)
      (ws : List (WorkerSt α)),
      poolRun ⟨q, w :: ws⟩ (sched.map Nat.succ) =
        ⟨(poolRun ⟨q, ws⟩ sched).queue, w :: (poolRun ⟨q, ws⟩ sched).workers⟩
  | [], _, _, _ => rfl
  | i :: sched, q, w, ws => by
      rw [List.map_cons, poolRun, poolStep_succ, poolRun_succ_map sched]
      rfl

theorem poolFinishRange {α : Type} :
    ∀ ws : List (WorkerSt α),
      (poolRun ⟨([] : List α), ws⟩ (List.range ws.length)).queue = [] ∧
      (poolRun ⟨([] : List α), ws⟩ (List.range ws.length)).allDone
  | [] => ⟨rfl, by intro w hw; simp [poolRun] at hw⟩
  | w :: ws => by
      rw [List.length_cons, List.range_succ_eq_map]
      have hstep : ∃ p, poolStep ⟨([] : List α), w :: ws⟩ 0 =
          ⟨[], ⟨p, true⟩ :: ws⟩ := by
        refine ⟨w.procd, ?_⟩
        unfold poolStep
        cases hd : w.done with
        | true =>
            simp only [List.getElem?_cons_zero, hd, if_true]
            have : w = ⟨w.procd, true⟩ := by cases w; simp_all
            rw [← this]
        | false => simp [hd, List.set]
      obtain ⟨p, hstep⟩ := hstep
      rw [poolRun, hstep, poolRun_succ_map]
      obtain ⟨hq, hall⟩ := poolFinishRange ws
      refine ⟨hq, ?_⟩
      intro w' hw'
      rcases List.mem_cons.mp hw' with h | h
      · rw [h]
      · exact hall w' h

theorem poolTerminates {α : Type} (items : List α) (N : Nat) (hN : 0 < N) :
    ∃ sched, (poolRun (poolInit items N) sched).allDone := by
  refine ⟨List.replicate items.length 0 ++ List.range N, ?_⟩
  rw [poolRun_append]
  have h0 : (List.replicate N (⟨[], false⟩ : WorkerSt α))[0]? =
      some ⟨[], false⟩ := by
    cases N with
    | zero => omega
    | succ n => simp [List.replicate_succ]
  rw [show poolInit items N = ⟨items, List.replicate N ⟨[], false⟩⟩ from rfl,
    poolDrain items _ [] h0]
  have hlen : ((List.replicate N (⟨[], false⟩ : WorkerSt α)).set 0
      ⟨[] ++ items, false⟩).length = N := by simp
  have hfin := (poolFinishRange ((List.replicate N (⟨[], false⟩ : WorkerSt α)).set 0
      ⟨[] ++ items, false⟩)).2
  rw [hlen] at hfin
  exact hfin

theorem JsonObj.hasKey_eq_isSome_find :
    ∀ (fs : JsonObj) (k : String),
      fs.hasKey k = (fs.toList.find? (fun f => f.1 == k)).isSome
  | .nil, _ => rfl
  | .cons k' v' fs, k => by
      by_cases hk : k' == k
      · simp [JsonObj.hasKey, JsonObj.toList, List.find?, hk]
      · simp only [Bool.not_eq_true] at hk
        simp [JsonObj.hasKey, JsonObj.toList, List.find?, hk,
          JsonObj.hasKey_eq_isSome_find fs k]

/-- C10.  `validate_response` touches the decoded body only on a 200
status: on any non-success status it raises `DebankError` carrying the
raw response text, whatever the body is — in particular a non-success
response whose body is not valid JSON still yields `DebankError`, never
a decode failure. -/
theorem C10_validate_response_no_decode_on_failure
    (st : Nat) (text : String) (b : Except Unit Json) (h : st ≠ 200) :
    validate_response ⟨st, text, b⟩ =
      .error (.debank ("Debank return " ++ text)) := by
  simp [validate_response, h]

/-- Witness for C10 at a concrete non-success response with an
undecodable body. -/
theorem C10_witness :
    (500 ≠ 200) ∧
    validate_response ⟨500, "boom", .error ()⟩ =
      .error (.debank "Debank return boom") :=
  ⟨by decide,
   C10_validate_response_no_decode_on_failure 500 "boom" (.error ()) (by decide)⟩

/-- C1, counterexample.  The claim quantifies over EVERY HTTP response
and asserts that a success-status response whose decoded body has no
`error_msg` field is returned unchanged; but a 200 response whose body
does not decode as JSON is not returned at all — `response.json()` on
line 49 raises a decode error (which is not a `DebankError`). -/
theorem C1_counterexample :
    (Response.mk 200 "not json" (.error ())).status_code = 200 ∧
    (¬ ∃ j, (Response.mk 200 "not json" (.error ())).body = .ok j ∧
       j.contains "error_msg" = .ok true) ∧
    validate_response (Response.mk 200 "not json" (.error ())) ≠
      .ok (Response.mk 200 "not json" (.error ())) ∧
    validate_response (Response.mk 200 "not json" (.error ())) =
      .error .jsonDecode := by
  refine ⟨rfl, ?_, by decide, rfl⟩
  rintro ⟨j, hj, -⟩
  simp at hj

theorem Json.contains_error_typeError (j : Json) (s : String) (e : PyError)
    (h : j.contains s = .error e) : e = .typeError := by
  cases j <;> simp [Json.contains] at h <;> exact h.symm

theorem Json.get_error_not_debank (j : Json) (k : String) (e : PyError)
    (m : String) (h : j.get k = .error e) : e ≠ .debank m := by
  cases j
  case obj fs =>
    simp only [Json.get] at h
    cases hf : JsonObj.toList fs |>.find? (fun f => f.1 == k) with
    | none =>
      rw [hf] at h
      simp only [Except.error.injEq] at h
      subst h
      simp
    | some f =>
      rw [hf] at h
      simp at h
  all_goals
    simp only [Json.get, Except.error.injEq] at h
    subst h
    simp

/-- C1, as amended.  `validate_response` raises `DebankError` with the
raw text on every non-success status.  On a success status whose body
decodes, it returns the very same response unchanged whenever the
Python membership test `"error_msg" in body` is false (an object
without the key, a list not containing the string, a string not
containing it as a substring), and raises `DebankError` carrying the
`error_msg` value whenever the test is true and the value is
retrievable; altogether, a `DebankError` is raised exactly when the
status is not success or the decoded body contains `error_msg` with a
retrievable value.  (A success-status response whose body fails to
decode is not returned unchanged — the body access raises the decode
error, the case the original claim missed.) -/
theorem C1_validate_response_amended (r : Response) :
    (r.status_code ≠ 200 →
      validate_response r = .error (.debank ("Debank return " ++ r.text))) ∧
    (∀ j, r.status_code = 200 → r.body = .ok j →
      ((j.contains "error_msg" = .ok false → validate_response r = .ok r) ∧
       (∀ v, j.contains "error_msg" = .ok true → j.get "error_msg" = .ok v →
          validate_response r =
            .error (.debank ("Debank return " ++ v.pyStr))))) ∧
    ((∃ m, validate_response r = .error (.debank m)) ↔
      (r.status_code ≠ 200 ∨
        ∃ j v, r.body = .ok j ∧ j.contains "error_msg" = .ok true ∧
          j.get "error_msg" = .ok v)) := by
  have h1 : r.status_code ≠ 200 →
      validate_response r = .error (.debank ("Debank return " ++ r.text)) := by
    intro h
    simp [validate_response, h]
  have h2 : ∀ j, r.status_code = 200 → r.body = .ok j →
      ((j.contains "error_msg" = .ok false → validate_response r = .ok r) ∧
       (∀ v, j.contains "error_msg" = .ok true → j.get "error_msg" = .ok v →
          validate_response r =
            .error (.debank ("Debank return " ++ v.pyStr)))) := by
    intro j h200 hbody
    have hjson : r.jsonOf = .ok j := by simp [Response.jsonOf, hbody]
    constructor
    · intro hc
      simp [validate_response, h200, hjson, hc]
    · intro v hc hv
      simp [validate_response, h200, hjson, hc, hv]
  refine ⟨h1, h2, ?_, ?_⟩
  · rintro ⟨m, hm⟩
    by_cases h200 : r.status_code = 200
    · right
      cases hbody : r.body with
      | error u =>
        have hval : validate_response r = .error .jsonDecode := by
          simp [validate_response, h200, Response.jsonOf, hbody]
        rw [hval] at hm
        simp at hm
      | ok j =>
        have hjson : r.jsonOf = .ok j := by simp [Response.jsonOf, hbody]
        cases hc : j.contains "error_msg" with
        | error e =>
          have hval : validate_response r = .error e := by
            simp [validate_response, h200, hjson, hc]
          rw [hval] at hm
          simp only [Except.error.injEq] at hm
          rw [Json.contains_error_typeError j "error_msg" e hc] at hm
          simp at hm
        | ok b =>
          cases b with
          | false =>
            have hval : validate_response r = .ok r := by
              simp [validate_response, h200, hjson, hc]
            rw [hval] at hm
            simp at hm
          | true =>
            cases hg : j.get "error_msg" with
            | error e =>
              have hval : validate_response r = .error e := by
                simp [validate_response, h200, hjson, hc, hg]
              rw [hval] at hm
              simp only [Except.error.injEq] at hm
              exact absurd hm (Json.get_error_not_debank j "error_msg" e m hg)
            | ok v => exact ⟨j, v, rfl, hc, hg⟩
    · exact Or.inl h200
  · rintro (h200 | ⟨j, v, hbody, hc, hg⟩)
    · exact ⟨_, h1 h200⟩
    · by_cases h200 : r.status_code = 200
      · exact ⟨_, (h2 j h200 hbody).2 v hc hg⟩
      · exact ⟨_, h1 h200⟩

/-- Witness for C1's amended theorem at concrete responses: a 404, a 200
with an `error_msg` object body, a clean 200 object body, and a 200
whose body decodes to a list — also returned unchanged. -/
theorem C1_witness :
    ((404 ≠ 200) ∧
      validate_response ⟨404, "oops", .ok (jObj [])⟩ =
        .error (.debank "Debank return oops")) ∧
    validate_response ⟨200, "", .ok (jObj [("error_msg", Json.str "bad")])⟩ =
      .error (.debank "Debank return bad") ∧
    validate_response ⟨200, "x", .ok (jObj [("data", Json.null)])⟩ =
      .ok ⟨200, "x", .ok (jObj [("data", Json.null)])⟩ ∧
    validate_response ⟨200, "y", .ok (jArr [])⟩ =
      .ok ⟨200, "y", .ok (jArr [])⟩ := by
  refine ⟨⟨by decide, ?_⟩, ?_, ?_, ?_⟩
  · exact (C1_validate_response_amended ⟨404, "oops", .ok (jObj [])⟩).1
      (by decide)
  · exact ((C1_validate_response_amended
      ⟨200, "", .ok (jObj [("error_msg", Json.str "bad")])⟩).2.1
      (jObj [("error_msg", Json.str "bad")]) rfl rfl).2
      (Json.str "bad") rfl rfl
  · exact ((C1_validate_response_amended
      ⟨200, "x", .ok (jObj [("data", Json.null)])⟩).2.1
      (jObj [("data", Json.null)]) rfl rfl).1 rfl
  · exact ((C1_validate_response_amended
      ⟨200, "y", .ok (jArr [])⟩).2.1 (jArr []) rfl rfl).1 rfl


theorem splitOnceColon_append :
    ∀ (s t : List Char), ':' ∉ s →
      splitOnceColon (s ++ ':' :: t) = (s, some t)
  | [], t, _ => by simp [splitOnceColon]
  | c :: s, t, h => by
      have hc : ¬ c = ':' := fun hc => h (hc ▸ List.mem_cons_self c s)
      have hs : ':' ∉ s := fun hs => h (List.mem_cons_of_mem c hs)
      simp [splitOnceColon, hc, splitOnceColon_append s t hs]

/-- C9.  Line parsing: a line of the shape `s ++ ":" ++ t` whose prefix
`s` is colon-free is split at that first colon — the secret is `s` and
the proxy is the entire remainder `t`, colons and all; a line with no
colon at all yields the whole line as the secret and no proxy. -/
theorem C9_parseLine_splits_at_first_colon :
    (∀ (s t : List Char), ':' ∉ s →
      parseLine (String.mk (s ++ ':' :: t)) = (String.mk s, some (String.mk t))) ∧
    (∀ line : String, ':' ∉ line.toList → parseLine line = (line, none)) := by
  constructor
  · intro s t hs
    have hmem : ':' ∈ s ++ ':' :: t := by simp
    simp only [parseLine, String.toList, hmem, if_true]
    rw [splitOnceColon_append s t hs]
    rfl
  · intro line h
    unfold parseLine
    rw [if_neg h]

/-- Witness for C9: `"sec:pr:oxy"` splits at the first colon only, and a
colon-free line gets no proxy. -/
theorem C9_witness :
    (':' ∉ ['s', 'e', 'c'] ∧
      parseLine "sec:pr:oxy" = ("sec", some "pr:oxy")) ∧
    (':' ∉ "barekey".toList ∧ parseLine "barekey" = ("barekey", none)) := by
  refine ⟨⟨by decide, ?_⟩, by decide, ?_⟩
  · exact C9_parseLine_splits_at_first_colon.1
      ['s', 'e', 'c'] ['p', 'r', ':', 'o', 'x', 'y'] (by decide)
  · exact C9_parseLine_splits_at_first_colon.2 "barekey" (by decide)

/-- C5, counterexample.  A response that the validation gate rejects
(it carries an `error_msg` field) whose body `badge_list` nevertheless
decodes and uses: `badge_list` (line 111-119) never calls
`validate_response`, so the claim's "including the badge-list call" is
false. -/
theorem C5_counterexample :
    validate_response
      ⟨200, "", .ok (jObj [("error_msg", Json.str "boom"),
        ("data", jObj [("badge_list", jArr [])])])⟩ =
      .error (.debank "Debank return boom") ∧
    badge_list
      ⟨200, "", .ok (jObj [("error_msg", Json.str "boom"),
        ("data", jObj [("badge_list", jArr [])])])⟩ = .ok [] :=
  ⟨rfl, rfl⟩

/-- C5, as amended.  Every call made through the `Debank` client — the
five endpoint methods `refcode_track`, `badge_user_can_mint`,
`badge_mint`, `sign_v2`, `login_v2` — passes its raw response through the
single `validate_response` gate before anything else sees it; the
badge-list call is the one exception: `badge_list` uses a response body
that the gate would reject (final conjunct). -/
theorem C5_endpoints_validate_except_badge_list :
    (∀ (d : Debank) (net : Net),
      Debank.refcode_track d net = validate_response (net d.refcode_track_req)) ∧
    (∀ (d : Debank) (net : Net) (id : Json),
      Debank.badge_user_can_mint d net id =
        validate_response (net (d.badge_user_can_mint_req id))) ∧
    (∀ (d : Debank) (net : Net) (id : Json),
      Debank.badge_mint d net id =
        validate_response (net (d.badge_mint_req id))) ∧
    (∀ (d : Debank) (net : Net) (address : String),
      Debank.sign_v2 d net address =
        validate_response (net (d.sign_v2_req address))) ∧
    (∀ (d : Debank) (net : Net) (address signature : String),
      Debank.login_v2 d net address signature =
        validate_response (net (d.login_v2_req address signature))) ∧
    (∃ raw : Response, (∃ m, validate_response raw = .error m) ∧
      (badge_list raw).isOk = true) :=
  ⟨fun _ _ => rfl, fun _ _ _ => rfl, fun _ _ _ => rfl, fun _ _ _ => rfl,
   fun _ _ _ _ => rfl,
   ⟨⟨200, "", .ok (jObj [("error_msg", Json.str "boom"),
      ("data", jObj [("badge_list", jArr [])])])⟩,
    ⟨.debank "Debank return boom", rfl⟩, rfl⟩⟩

theorem dictInsert_keys_mem :
    ∀ (d : List (Json × Json)) (k v x : Json),
      (x ∈ (dictInsert d k v).map Prod.fst) ↔ (x ∈ d.map Prod.fst ∨ x = k)
  | [], k, v, x => by simp [dictInsert]
  | (k', v') :: rest, k, v, x => by
      simp only [dictInsert]
      by_cases hk : k' = k
      · rw [if_pos hk]
        subst hk
        simp only [List.map_cons, List.mem_cons]
        tauto
      · rw [if_neg hk]
        simp only [List.map_cons, List.mem_cons, dictInsert_keys_mem rest k v x]
        tauto

theorem dictLookup_insert_self :
    ∀ (d : List (Json × Json)) (k v : Json),
      dictLookup (dictInsert d k v) k = some v
  | [], k, v => by simp [dictInsert, dictLookup]
  | (k', v') :: rest, k, v => by
      simp only [dictInsert]
      by_cases hk : k' = k
      · rw [if_pos hk]
        simp [dictLookup, hk]
      · rw [if_neg hk]
        simp [dictLookup, hk, dictLookup_insert_self rest k v]

theorem dictLookup_insert_other :
    ∀ (d : List (Json × Json)) (k v x : Json), x ≠ k →
      dictLookup (dictInsert d k v) x = dictLookup d x
  | [], k, v, x, hx => by
      have hkx : ¬(k = x) := fun h => hx h.symm
      simp [dictInsert, dictLookup, hkx]
  | (k', v') :: rest, k, v, x, hx => by
      have hkx : ¬(k = x) := fun h => hx h.symm
      simp only [dictInsert]
      by_cases hk : k' = k
      · rw [if_pos hk]
        subst hk
        simp [dictLookup, hkx]
      · rw [if_neg hk]
        simp [dictLookup, dictLookup_insert_other rest k v x hx]

theorem dictFold_keys_mem :
    ∀ (pairs : List (Json × Json)) (acc : List (Json × Json)) (x : Json),
      (x ∈ (pairs.foldl (fun a p => dictInsert a p.1 p.2) acc).map Prod.fst) ↔
        (x ∈ acc.map Prod.fst ∨ x ∈ pairs.map Prod.fst)
  | [], acc, x => by simp
  | q :: rest, acc, x => by
      simp only [List.foldl_cons, dictFold_keys_mem rest, dictInsert_keys_mem,
        List.map_cons, List.mem_cons]
      tauto

theorem dictFold_lookup_notin :
    ∀ (pairs : List (Json × Json)) (acc : List (Json × Json)) (x : Json),
      x ∉ pairs.map Prod.fst →
      dictLookup (pairs.foldl (fun a p => dictInsert a p.1 p.2) acc) x =
        dictLookup acc x
  | [], acc, x, _ => rfl
  | q :: rest, acc, x, hx => by
      have hq : x ≠ q.1 := fun h => hx (by simp [h])
      have hrest : x ∉ rest.map Prod.fst := fun h => hx (by simp [h])
      rw [List.foldl_cons, dictFold_lookup_notin rest _ x hrest,
        dictLookup_insert_other acc q.1 q.2 x hq]

theorem dictFold_lookup_nodup :
    ∀ (pairs : List (Json × Json)) (acc : List (Json × Json)),
      (pairs.map Prod.fst).Nodup →
      ∀ p ∈ pairs,
        dictLookup (pairs.foldl (fun a p => dictInsert a p.1 p.2) acc) p.1 =
          some p.2
  | [], _, _, p, hp => by simp at hp
  | q :: rest, acc, hnd, p, hp => by
      simp only [List.map_cons, List.nodup_cons] at hnd
      rcases List.mem_cons.mp hp with h | h
      · subst h
        rw [List.foldl_cons, dictFold_lookup_notin rest _ p.1 hnd.1,
          dictLookup_insert_self]
      · exact dictFold_lookup_nodup rest _ hnd.2 p h

/-- C8.  Whenever the extraction of `(id, name)` pairs from the
badge-list response succeeds, `badge_list` returns the dict built from
them; the key set of that dict is exactly the set of extracted `id`s
(nothing is dropped), and when the `id`s are pairwise distinct every
badge's `id` maps to that badge's `name`. -/
theorem C8_badge_list_catalog (raw : Response) (pairs : List (Json × Json))
    (h : badgePairs raw = .ok pairs) :
    badge_list raw = .ok (dictComp pairs) ∧
    (∀ k, k ∈ (dictComp pairs).map Prod.fst ↔ k ∈ pairs.map Prod.fst) ∧
    ((pairs.map Prod.fst).Nodup →
      ∀ p ∈ pairs, dictLookup (dictComp pairs) p.1 = some p.2) := by
  refine ⟨by simp [badge_list, h], ?_, ?_⟩
  · intro k
    rw [dictComp, dictFold_keys_mem]
    simp
  · intro hnd p hp
    exact dictFold_lookup_nodup pairs [] hnd p hp

/-- Witness for C8 at a concrete two-badge response. -/
theorem C8_witness :
    badgePairs
      ⟨200, "", .ok (jObj [("data", jObj [("badge_list", jArr
        [jObj [("id", Json.num 1), ("name", Json.str "Genesis")],
         jObj [("id", Json.num 2), ("name", Json.str "Pioneer")]])])])⟩ =
      .ok [(Json.num 1, Json.str "Genesis"), (Json.num 2, Json.str "Pioneer")] ∧
    badge_list
      ⟨200, "", .ok (jObj [("data", jObj [("badge_list", jArr
        [jObj [("id", Json.num 1), ("name", Json.str "Genesis")],
         jObj [("id", Json.num 2), ("name", Json.str "Pioneer")]])])])⟩ =
      .ok (dictComp
        [(Json.num 1, Json.str "Genesis"), (Json.num 2, Json.str "Pioneer")]) ∧
    dictLookup (dictComp
        [(Json.num 1, Json.str "Genesis"), (Json.num 2, Json.str "Pioneer")])
      (Json.num 2) = some (Json.str "Pioneer") := by
  have h := C8_badge_list_catalog
    ⟨200, "", .ok (jObj [("data", jObj [("badge_list", jArr
      [jObj [("id", Json.num 1), ("name", Json.str "Genesis")],
       jObj [("id", Json.num 2), ("name", Json.str "Pioneer")]])])])⟩
    [(Json.num 1, Json.str "Genesis"), (Json.num 2, Json.str "Pioneer")] rfl
  exact ⟨rfl, h.1,
    h.2.2 (by decide) (Json.num 2, Json.str "Pioneer") (by decide)⟩

/-- C7.  When every eligibility query of the catalog answers with a
boolean flag and every mint of an eligible badge succeeds, the badge
loop walks the catalog in its mapping order and produces, per badge:
the eligibility call, then — exactly when the flag is true — one mint
call with the success log, or else the failure log, then the fixed
2-second pause; and no error escapes. -/
theorem C7_badge_loop_checks_then_mints
    (net : Net) (d : Debank) (addr : String)
    (badges : List (Json × Json)) (f : Json → Bool)
    (hcan : ∀ p ∈ badges,
      DebankWorker.is_can_mint_bage d net p.1 = .ok (.bool (f p.1)))
    (hmint : ∀ p ∈ badges, f p.1 = true →
      ∃ r, Debank.badge_mint d net p.1 = .ok r) :
    badgeLoop net d addr badges =
      ((badges.map fun p =>
          Event.canMintCall p.1 ::
            ((if f p.1 then
                [Event.mintCall p.1,
                 Event.logSuccess
                   ("[" ++ addr ++ "] Badge " ++ p.2.pyStr ++ " minted")]
              else
                [Event.logError
                   ("[" ++ addr ++ "] Badge " ++ p.2.pyStr ++ " can't minted")]) ++
             [Event.sleep 2])).join, none) := by
  induction badges with
  | nil => rfl
  | cons q rest ih =>
    obtain ⟨id, name⟩ := q
    have hq : DebankWorker.is_can_mint_bage d net id = .ok (.bool (f id)) :=
      hcan (id, name) (List.mem_cons_self _ _)
    have ihr := ih (fun p hp => hcan p (List.mem_cons_of_mem _ hp))
      (fun p hp => hmint p (List.mem_cons_of_mem _ hp))
    cases hf : f id with
    | true =>
      obtain ⟨r, hr⟩ := hmint (id, name) (List.mem_cons_self _ _) hf
      simp only [badgeLoop, hq, hf, Json.truthy, if_true, hr, ihr,
        List.map_cons, List.join]
      simp
    | false =>
      simp only [badgeLoop, hq, hf, Json.truthy, if_false, ihr,
        List.map_cons, List.join]
      simp

/-- Witness for C7 at a one-badge catalog whose eligibility response is
`true` and whose mint succeeds. -/
theorem C7_witness :
    (∀ p ∈ [(Json.num 1, Json.str "Genesis")],
      DebankWorker.is_can_mint_bage (Debank.init none)
        (fun _ => ⟨200, "", .ok (jObj [("data", jObj [("can_mint", Json.bool true)])])⟩)
        p.1 = .ok (.bool true)) ∧
    badgeLoop
      (fun _ => ⟨200, "", .ok (jObj [("data", jObj [("can_mint", Json.bool true)])])⟩)
      (Debank.init none) "0xAbC" [(Json.num 1, Json.str "Genesis")] =
      ([Event.canMintCall (Json.num 1), Event.mintCall (Json.num 1),
        Event.logSuccess "[0xAbC] Badge Genesis minted", Event.sleep 2], none) := by
  constructor
  · intro p hp
    simp only [List.mem_singleton] at hp
    subst hp
    rfl
  · have h := C7_badge_loop_checks_then_mints
      (fun _ => ⟨200, "", .ok (jObj [("data", jObj [("can_mint", Json.bool true)])])⟩)
      (Debank.init none) "0xAbC" [(Json.num 1, Json.str "Genesis")]
      (fun _ => true)
      (by intro p hp; simp only [List.mem_singleton] at hp; subst hp; rfl)
      (by
        intro p hp _
        exact ⟨⟨200, "", .ok (jObj [("data", jObj [("can_mint", Json.bool true)])])⟩,
          by simp only [List.mem_singleton] at hp; subst hp; rfl⟩)
    rw [h]
    rfl

theorem headerLookup_headerSet_self :
    ∀ (hs : List (String × String)) (k v : String),
      headerLookup (headerSet hs k v) k = some v
  | [], k, v => by simp [headerSet, headerLookup]
  | (k', v') :: rest, k, v => by
      simp only [headerSet]
      by_cases hk : (k' == k) = true
      · rw [if_pos hk]
        simp [headerLookup, hk]
      · rw [if_neg hk]
        simp [headerLookup, hk, headerLookup_headerSet_self rest k v]

/-- C4.  A successful `login` attaches the persistent `account` header:
the JSON serialization of `{random_at: the current unix time, random_id:
the fresh uuid4 hex, session_id: the value extracted from the login
response's `data`, user_addr: the lowercased account address — the very
address sent in both the sign-challenge request and the login request —
wallet_type: "metamask", is_verified: true}`; the client's headers carry
it from then on, so every subsequent request of that client
(`refcode_track`, `badge_user_can_mint`, `badge_mint`) includes it. -/
theorem C4_login_session_header (d : Debank) (net : Net) (now : Int)
    (uuidHex : String) (acct : EthAccount) (d' : Debank)
    (h : DebankWorker.login d net now uuidHex acct = .ok d') :
    ∃ (r1 : Response) (j1 data1 textVal : Json) (text : String)
      (r2 : Response) (j2 data2 session_id : Json),
      Debank.sign_v2 d net (pyLower acct.address) = .ok r1 ∧
      r1.jsonOf = .ok j1 ∧
      j1.get "data" = .ok data1 ∧
      data1.get "text" = .ok textVal ∧
      textVal.asStr = .ok text ∧
      Debank.login_v2 d net (pyLower acct.address) (acct.signHex text) = .ok r2 ∧
      r2.jsonOf = .ok j2 ∧
      j2.get "data" = .ok data2 ∧
      data2.get "session_id" = .ok session_id ∧
      d'.headers = headerSet d.headers "account" (Json.dumps (jObj
        [("random_at", Json.num now), ("random_id", Json.str uuidHex),
         ("session_id", session_id),
         ("user_addr", Json.str (pyLower acct.address)),
         ("wallet_type", Json.str "metamask"),
         ("is_verified", Json.bool true)])) ∧
      d'.proxies = d.proxies ∧
      headerLookup d'.headers "account" = some (Json.dumps (jObj
        [("random_at", Json.num now), ("random_id", Json.str uuidHex),
         ("session_id", session_id),
         ("user_addr", Json.str (pyLower acct.address)),
         ("wallet_type", Json.str "metamask"),
         ("is_verified", Json.bool true)])) ∧
      (∀ id, (d'.badge_user_can_mint_req id).headers = d'.headers) ∧
      (∀ id, (d'.badge_mint_req id).headers = d'.headers) ∧
      d'.refcode_track_req.headers = d'.headers := by
  unfold DebankWorker.login at h
  split at h
  · exact absurd h (by simp)
  next r1 h1 =>
    split at h
    · exact absurd h (by simp)
    next j1 hj1 =>
      split at h
      · exact absurd h (by simp)
      next data1 hd1 =>
        split at h
        · exact absurd h (by simp)
        next textVal ht =>
          split at h
          · exact absurd h (by simp)
          next text hs =>
            split at h
            · exact absurd h (by simp)
            next r2 h2 =>
              split at h
              · exact absurd h (by simp)
              next j2 hj2 =>
                split at h
                · exact absurd h (by simp)
                next data2 hd2 =>
                  split at h
                  · exact absurd h (by simp)
                  next session_id hsid =>
                    injection h with h'
                    subst h'
                    exact ⟨r1, j1, data1, textVal, text, r2, j2, data2,
                      session_id, h1, hj1, hd1, ht, hs, h2, hj2, hd2, hsid,
                      rfl, rfl, headerLookup_headerSet_self _ _ _,
                      fun _ => rfl, fun _ => rfl, rfl⟩

/-- Witness for C4: a concrete login against a service returning a
challenge text and a session id; the attached header carries the
lowercased address `"0xabc"` and session id `"sess1"`. -/
theorem C4_witness :
    ∃ (r1 : Response) (j1 data1 textVal : Json) (text : String)
      (r2 : Response) (j2 data2 session_id : Json),
      Debank.sign_v2 (Debank.init none)
        (fun _ => ⟨200, "", .ok (jObj
          [("data", jObj [("text", Json.str "challenge"),
                          ("session_id", Json.str "sess1")])])⟩)
        (pyLower (EthAccount.mk "0xAbC" (fun t => "sig" ++ t)).address) = .ok r1 ∧
      r1.jsonOf = .ok j1 ∧
      j1.get "data" = .ok data1 ∧
      data1.get "text" = .ok textVal ∧
      textVal.asStr = .ok text ∧
      Debank.login_v2 (Debank.init none)
        (fun _ => ⟨200, "", .ok (jObj
          [("data", jObj [("text", Json.str "challenge"),
                          ("session_id", Json.str "sess1")])])⟩)
        (pyLower (EthAccount.mk "0xAbC" (fun t => "sig" ++ t)).address)
        ((EthAccount.mk "0xAbC" (fun t => "sig" ++ t)).signHex text) = .ok r2 ∧
      r2.jsonOf = .ok j2 ∧
      j2.get "data" = .ok data2 ∧
      data2.get "session_id" = .ok session_id ∧
      (Debank.mk (headerSet HEADERS "account" (Json.dumps (jObj
        [("random_at", Json.num 111), ("random_id", Json.str "deadbeef"),
         ("session_id", Json.str "sess1"),
         ("user_addr", Json.str "0xabc"),
         ("wallet_type", Json.str "metamask"),
         ("is_verified", Json.bool true)]))) none).headers =
        headerSet (Debank.init none).headers "account" (Json.dumps (jObj
        [("random_at", Json.num 111), ("random_id", Json.str "deadbeef"),
         ("session_id", session_id),
         ("user_addr", Json.str (pyLower (EthAccount.mk "0xAbC"
            (fun t => "sig" ++ t)).address)),
         ("wallet_type", Json.str "metamask"),
         ("is_verified", Json.bool true)])) ∧
      (Debank.mk (headerSet HEADERS "account" (Json.dumps (jObj
        [("random_at", Json.num 111), ("random_id", Json.str "deadbeef"),
         ("session_id", Json.str "sess1"),
         ("user_addr", Json.str "0xabc"),
         ("wallet_type", Json.str "metamask"),
         ("is_verified", Json.bool true)]))) none).proxies =
        (Debank.init none).proxies ∧
      headerLookup (Debank.mk (headerSet HEADERS "account" (Json.dumps (jObj
        [("random_at", Json.num 111), ("random_id", Json.str "deadbeef"),
         ("session_id", Json.str "sess1"),
         ("user_addr", Json.str "0xabc"),
         ("wallet_type", Json.str "metamask"),
         ("is_verified", Json.bool true)]))) none).headers "account" =
        some (Json.dumps (jObj
        [("random_at", Json.num 111), ("random_id", Json.str "deadbeef"),
         ("session_id", session_id),
         ("user_addr", Json.str (pyLower (EthAccount.mk "0xAbC"
            (fun t => "sig" ++ t)).address)),
         ("wallet_type", Json.str "metamask"),
         ("is_verified", Json.bool true)])) ∧
      (∀ id, ((Debank.mk (headerSet HEADERS "account" (Json.dumps (jObj
        [("random_at", Json.num 111), ("random_id", Json.str "deadbeef"),
         ("session_id", Json.str "sess1"),
         ("user_addr", Json.str "0xabc"),
         ("wallet_type", Json.str "metamask"),
         ("is_verified", Json.bool true)]))) none).badge_user_can_mint_req
           id).headers =
        (Debank.mk (headerSet HEADERS "account" (Json.dumps (jObj
        [("random_at", Json.num 111), ("random_id", Json.str "deadbeef"),
         ("session_id", Json.str "sess1"),
         ("user_addr", Json.str "0xabc"),
         ("wallet_type", Json.str "metamask"),
         ("is_verified", Json.bool true)]))) none).headers) ∧
      (∀ id, ((Debank.mk (headerSet HEADERS "account" (Json.dumps (jObj
        [("random_at", Json.num 111), ("random_id", Json.str "deadbeef"),
         ("session_id", Json.str "sess1"),
         ("user_addr", Json.str "0xabc"),
         ("wallet_type", Json.str "metamask"),
         ("is_verified", Json.bool true)]))) none).badge_mint_req id).headers =
        (Debank.mk (headerSet HEADERS "account" (Json.dumps (jObj
        [("random_at", Json.num 111), ("random_id", Json.str "deadbeef"),
         ("session_id", Json.str "sess1"),
         ("user_addr", Json.str "0xabc"),
         ("wallet_type", Json.str "metamask"),
         ("is_verified", Json.bool true)]))) none).headers) ∧
      (Debank.mk (headerSet HEADERS "account" (Json.dumps (jObj
        [("random_at", Json.num 111), ("random_id", Json.str "deadbeef"),
         ("session_id", Json.str "sess1"),
         ("user_addr", Json.str "0xabc"),
         ("wallet_type", Json.str "metamask"),
         ("is_verified", Json.bool true)]))) none).refcode_track_req.headers =
        (Debank.mk (headerSet HEADERS "account" (Json.dumps (jObj
        [("random_at", Json.num 111), ("random_id", Json.str "deadbeef"),
         ("session_id", Json.str "sess1"),
         ("user_addr", Json.str "0xabc"),
         ("wallet_type", Json.str "metamask"),
         ("is_verified", Json.bool true)]))) none).headers :=
  C4_login_session_header (Debank.init none)
    (fun _ => ⟨200, "", .ok (jObj
      [("data", jObj [("text", Json.str "challenge"),
                      ("session_id", Json.str "sess1")])])⟩)
    111 "deadbeef" (EthAccount.mk "0xAbC" (fun t => "sig" ++ t))
    (Debank.mk (headerSet HEADERS "account" (Json.dumps (jObj
      [("random_at", Json.num 111), ("random_id", Json.str "deadbeef"),
       ("session_id", Json.str "sess1"),
       ("user_addr", Json.str "0xabc"),
       ("wallet_type", Json.str "metamask"),
       ("is_verified", Json.bool true)]))) none)
    rfl

theorem workerSeqFrom_ok (env : RunEnv) (badges : List (Json × Json)) :
    ∀ (queue : List (String × Option String)) (idx : Nat),
      (∀ item ∈ queue, (∃ a, env.from_key item.1 = .ok a) ∧
        (∃ u, env.mk_client item.2 = .ok u)) →
      workerSeqFrom env badges idx queue =
        .ok (((List.enumFrom idx queue).map
          (fun e => accountEvents env badges e.1 e.2)).join)
  | [], idx, _ => rfl
  | item :: rest, idx, hq => by
      obtain ⟨⟨a, ha⟩, ⟨u, hu⟩⟩ := hq item (List.mem_cons_self _ _)
      have hrest := workerSeqFrom_ok env badges rest (idx + 1)
        (fun it hit => hq it (List.mem_cons_of_mem _ hit))
      simp only [workerSeqFrom, processQItem, ha, hu, hrest,
        List.enumFrom, List.map_cons, List.join]
      simp [accountEvents, ha]

theorem workerSeqFrom_error (env : RunEnv) (badges : List (Json × Json)) :
    ∀ (queue : List (String × Option String)) (idx : Nat) (e : PyError),
      workerSeqFrom env badges idx queue = .error e →
      ∃ item ∈ queue,
        env.from_key item.1 = .error e ∨ env.mk_client item.2 = .error e
  | [], _, e, h => by simp [workerSeqFrom] at h
  | item :: rest, idx, e, h => by
      simp only [workerSeqFrom, processQItem] at h
      cases hk : env.from_key item.1 with
      | error e' =>
        rw [hk] at h
        simp only [Except.error.injEq] at h
        exact ⟨item, List.mem_cons_self _ _, Or.inl (h ▸ hk)⟩
      | ok a =>
        rw [hk] at h
        cases hc : env.mk_client item.2 with
        | error e' =>
          rw [hc] at h
          simp only [Except.error.injEq] at h
          exact ⟨item, List.mem_cons_self _ _, Or.inr (h ▸ hc)⟩
        | ok u =>
          rw [hc] at h
          cases hr : workerSeqFrom env badges (idx + 1) rest with
          | error e' =>
            rw [hr] at h
            simp only [Except.error.injEq] at h
            obtain ⟨it, hit, hor⟩ :=
              workerSeqFrom_error env badges rest (idx + 1) e' hr
            exact ⟨it, List.mem_cons_of_mem _ hit, h ▸ hor⟩
          | ok evs =>
            rw [hr] at h
            simp at h

/-- C3.  Whatever the remote service does (the network oracle `env.net`
is arbitrary, so login and every badge call may fail in any way), the
worker loop processes every queued account whose credential and client
construction succeed: the loop returns normally, producing each
account's events in queue order — an account whose `try` body raises
contributes its events plus the `except`-clause error log and the loop
moves on to the next account (second conjunct: a raised error is always
logged through `errLogMsg`). -/
theorem C3_worker_loop_catches_account_errors (env : RunEnv)
    (badges : List (Json × Json)) (queue : List (String × Option String))
    (hq : ∀ item ∈ queue, (∃ a, env.from_key item.1 = .ok a) ∧
      (∃ u, env.mk_client item.2 = .ok u)) :
    workerSeq env badges queue =
      .ok ((queue.enum.map (fun e => accountEvents env badges e.1 e.2)).join) ∧
    (∀ (p : List Event × Option PyError) (e : PyError), p.2 = some e →
      tryExceptLog p = p.1 ++ [Event.logError (errLogMsg e)]) :=
  ⟨workerSeqFrom_ok env badges queue 0 hq,
   fun p e he => by simp [tryExceptLog, he]⟩

/-- Witness for C3: two queued accounts with valid secrets against a
service whose login responses lack the challenge text, so both accounts'
logins raise `KeyError('text')`; both errors are logged and both
accounts are processed. -/
theorem C3_witness :
    workerSeq
      ⟨fun _ => ⟨200, "", .ok (jObj [("data", jObj [])])⟩,
       fun _ => .ok ⟨"0xA", fun t => t⟩,
       fun _ => .ok (), fun _ => 0, fun _ => "u"⟩
      [] [("k1", none), ("k2", some "p")] =
      .ok [Event.logError "Error: 'text'", Event.logError "Error: 'text'"] := by
  have h := (C3_worker_loop_catches_account_errors
    ⟨fun _ => ⟨200, "", .ok (jObj [("data", jObj [])])⟩,
     fun _ => .ok ⟨"0xA", fun t => t⟩,
     fun _ => .ok (), fun _ => 0, fun _ => "u"⟩
    [] [("k1", none), ("k2", some "p")]
    (by
      intro item hit
      exact ⟨⟨⟨"0xA", fun t => t⟩, rfl⟩, ⟨(), rfl⟩⟩)).1
  rw [h]
  rfl


/-- C6, counterexample.  The badge catalog fetch succeeds, yet the run
aborts: deriving the credential of the second queued account raises, and
`Account.from_key` sits on line 126, OUTSIDE the `try` of lines 130-146,
so the exception escapes the worker loop and aborts the run — contrary
to the claim that no error arising while processing a queued account
(including deriving a credential) can abort the run. -/
theorem C6_counterexample :
    badge_list c6Main.badgeRaw = .ok [] ∧
    c6Run.from_key "badkey" = .error (.valueError "bad key") ∧
    mainRun c6Main = .error (.valueError "bad key") :=
  ⟨rfl, rfl, rfl⟩

/-- C6, as amended.  The errors that abort the run are exactly: a failed
badge-catalog fetch at startup (before any account is processed), and an
exception raised while deriving a queued account's credential or
constructing its session client — those two steps run outside the
worker's `try`.  Errors during login or the badge loop never abort the
run. -/
theorem C6_fatal_errors (env : MainEnv) :
    (∀ e, badge_list env.badgeRaw = .error e → mainRun env = .error e) ∧
    (∀ e, mainRun env = .error e →
      badge_list env.badgeRaw = .error e ∨
      ∃ item ∈ env.fileLines.map parseLine,
        env.run.from_key item.1 = .error e ∨
        env.run.mk_client item.2 = .error e) := by
  constructor
  · intro e h
    simp [mainRun, h]
  · intro e h
    unfold mainRun at h
    cases hb : badge_list env.badgeRaw with
    | error eb =>
      rw [hb] at h
      simp only [Except.error.injEq] at h
      subst h
      exact Or.inl rfl
    | ok c =>
      rw [hb] at h
      exact Or.inr (workerSeqFrom_error env.run c _ 0 e h)

/-- Witness for C6's amended theorem: a run whose badge-catalog fetch
fails (undecodable body) aborts with that error before any account is
touched; and the failing run of `C6_counterexample`'s input aborts with
the credential-derivation error of a queued item. -/
theorem C6_witness :
    mainRun ⟨["goodkey"], ⟨500, "down", .error ()⟩, c6Run⟩ =
      .error .jsonDecode ∧
    (badge_list c6Main.badgeRaw = .error (.valueError "bad key") ∨
      ∃ item ∈ c6Main.fileLines.map parseLine,
        c6Main.run.from_key item.1 = .error (.valueError "bad key") ∨
        c6Main.run.mk_client item.2 = .error (.valueError "bad key")) :=
  ⟨(C6_fatal_errors ⟨["goodkey"], ⟨500, "down", .error ()⟩, c6Run⟩).1
      .jsonDecode rfl,
   (C6_fatal_errors c6Main).2 (.valueError "bad key") rfl⟩


theorem sum_eq_one_unique :
    ∀ l : List Nat, l.sum = 1 →
      ∃ i, ∃ hi : i < l.length, l[i] = 1 ∧
        ∀ j, (hj : j < l.length) → l[j] ≠ 0 → j = i
  | [], h => by simp at h
  | a :: t, h => by
      rw [List.sum_cons] at h
      cases a with
      | zero =>
        simp only [Nat.zero_add] at h
        obtain ⟨i, hi, h1, hu⟩ := sum_eq_one_unique t h
        refine ⟨i + 1, by simpa using Nat.succ_lt_succ hi, by simpa using h1, ?_⟩
        intro j hj hne
        cases j with
        | zero => simp at hne
        | succ j =>
          have := hu j (by simpa using Nat.lt_of_succ_lt_succ hj)
            (by simpa using hne)
          omega
      | succ n =>
        have hn : n = 0 ∧ t.sum = 0 := by omega
        refine ⟨0, by simp, by simp [hn.1], ?_⟩
        intro j hj hne
        cases j with
        | zero => rfl
        | succ j =>
          exfalso
          have hj' : j < t.length := by simpa using Nat.lt_of_succ_lt_succ hj
          have hmem : t[j] ∈ t := List.getElem_mem hj'
          have : t[j] = 0 := by
            have := (List.sum_eq_zero_iff).mp hn.2
            exact this _ hmem
          simp only [List.getElem_cons_succ] at hne
          exact hne this

/-- C2.  Under any interleaving of the worker loops (any schedule of
which worker performs the next atomic check-or-pop), once every loop has
observed the empty queue and exited, the queue is empty and, for every
value, the copies dequeued across all workers number exactly the copies
on the input queue — no pair is duplicated, none is lost; a pair
occurring once is held by exactly one worker, exactly once.  Moreover a
terminating schedule exists for every input and every positive number of
workers. -/
theorem C2_queue_partition {α : Type} [DecidableEq α]
    (items : List α) (N : Nat) (hN : 0 < N) :
    (∀ sched : List Nat, (poolRun (poolInit items N) sched).allDone →
      (poolRun (poolInit items N) sched).queue = [] ∧
      (∀ x : α, ((poolRun (poolInit items N) sched).workers.map
          (fun w => w.procd.count x)).sum = items.count x) ∧
      (∀ x : α, items.count x = 1 →
        ∃ i, ∃ hi : i < (poolRun (poolInit items N) sched).workers.length,
          ((poolRun (poolInit items N) sched).workers[i]).procd.count x = 1 ∧
          ∀ j, (hj : j < (poolRun (poolInit items N) sched).workers.length) →
            x ∈ ((poolRun (poolInit items N) sched).workers[j]).procd →
            j = i)) ∧
    (∃ sched : List Nat, (poolRun (poolInit items N) sched).allDone) := by
  have hinit : (poolInit items N : PoolSt α).allDone →
      (poolInit items N : PoolSt α).queue = [] := by
    intro hall
    exfalso
    have hmem : (⟨[], false⟩ : WorkerSt α) ∈ (poolInit items N).workers :=
      List.mem_replicate.mpr ⟨Nat.pos_iff_ne_zero.mp hN, rfl⟩
    have := hall _ hmem
    simp at this
  refine ⟨?_, poolTerminates items N hN⟩
  intro sched hall
  have hqe : (poolRun (poolInit items N) sched).queue = [] :=
    poolRun_doneEmpty sched _ hinit hall
  have hcount : ∀ x : α, ((poolRun (poolInit items N) sched).workers.map
      (fun w => w.procd.count x)).sum = items.count x := by
    intro x
    have h := countTotal_poolRun sched (poolInit items N) x
    unfold countTotal at h
    rw [hqe] at h
    simp only [List.count_nil, Nat.zero_add] at h
    rw [h]
    simp [poolInit, List.map_replicate]
  refine ⟨hqe, hcount, ?_⟩
  intro x hx
  have hsum : ((poolRun (poolInit items N) sched).workers.map
      (fun w => w.procd.count x)).sum = 1 := by rw [hcount x, hx]
  obtain ⟨i, hi, h1, hu⟩ := sum_eq_one_unique _ hsum
  rw [List.length_map] at hi
  refine ⟨i, hi, ?_, ?_⟩
  · have := h1
    rw [List.getElem_map] at this
    exact this
  · intro j hj hmem
    have hjm : j < ((poolRun (poolInit items N) sched).workers.map
        (fun w => w.procd.count x)).length := by
      rw [List.length_map]; exact hj
    have hne : ((poolRun (poolInit items N) sched).workers.map
        (fun w => w.procd.count x))[j] ≠ 0 := by
      rw [List.getElem_map]
      simp only [ne_eq, List.count_eq_zero]
      intro hnot
      exact hnot hmem
    exact hu j hjm hne

/-- Witness for C2: three queued items, two workers, a schedule where
worker 0 drains the queue and both workers then observe it empty; each
item ends up with exactly one worker. -/
theorem C2_witness :
    (0 < 2) ∧
    (poolRun (poolInit [10, 20, 30] 2) [0, 0, 0, 0, 1]).allDone ∧
    (poolRun (poolInit [10, 20, 30] 2) [0, 0, 0, 0, 1]).queue = [] ∧
    ((poolRun (poolInit [10, 20, 30] 2) [0, 0, 0, 0, 1]).workers.map
      (fun w => w.procd.count 20)).sum = [10, 20, 30].count 20 := by
  obtain ⟨h1, h2, -⟩ :=
    (C2_queue_partition [10, 20, 30] 2 (by decide)).1 [0, 0, 0, 0, 1] (by decide)
  exact ⟨by decide, by decide, h1, h2 20⟩

example :
    validate_response ⟨404, "oops", .ok (jObj [])⟩
      = .error (.debank "Debank return oops") := rfl

example :
    validate_response ⟨200, "", .ok (jObj [("error_msg", Json.str "bad")])⟩
      = .error (.debank "Debank return bad") := rfl

example :
    validate_response ⟨200, "x", .ok (jObj [("data", Json.null)])⟩
      = .ok ⟨200, "x", .ok (jObj [("data", Json.null)])⟩ := rfl

example :
    validate_response ⟨200, "not json", .error ()⟩ = .error .jsonDecode := rfl
